import Mathlib

/-!
Verification of the image-processing core of `processamento.py`
(soil-exposure / deforestation detector and fire-hotspot detector).

The source operates on numpy/OpenCV byte images.  The shallow embedding
below models images as rectangular lists of BGR (resp. HSV) byte triples,
and models each OpenCV library call used by the source
(`cvtColor BGR2HSV`, `inRange`, `bitwise_or/and`, `GaussianBlur`,
`morphologyEx` with the default border mode, `findContours RETR_EXTERNAL`,
`contourArea`, `boundingRect`, `rectangle`, `putText`) by its documented
fixed-point semantics.  Machine bytes are `Nat`s; pixel coordinates used
by contour tracing and drawing are `Int`s; `cv2.contourArea`'s `double`
result is exact on these inputs and is modelled by `Rat`.
-/

namespace Processamento

set_option maxRecDepth 1000000
set_option maxHeartbeats 4000000

/-- A decoded pixel buffer: `channels`/`width`/`height` metadata plus the
pixel grid as rows (top to bottom) of byte triples.  For a BGR image the
triple is `(b, g, r)`; for an HSV buffer it is `(h, s, v)`.  (A 4-channel
buffer is represented by its first three channels; the alpha plane is
ignored by every operation the program performs.) -/
structure Img where
  channels : Nat
  width : Nat
  height : Nat
  rows : List (List (Nat × Nat × Nat))
  deriving DecidableEq

/-- Pixel read at column `x`, row `y` (out-of-range reads give `(0,0,0)`;
every theorem about pixel contents restricts to in-range coordinates). -/
def Img.px (i : Img) (x y : Nat) : Nat × Nat × Nat :=
  (i.rows.getD y []).getD x (0, 0, 0)

/-- Build a `w×h` image with `ch` channels from a pixel function. -/
def mkImg (ch w h : Nat) (f : Nat → Nat → Nat × Nat × Nat) : Img :=
  ⟨ch, w, h, (List.range h).map (fun y => (List.range w).map (fun x => f x y))⟩

/-- numpy `.copy()`: a fresh, independent buffer with the same contents.
Value-level it is the identity; the aliasing content of `copy` is captured
by the heap-level detectors below. -/
def Img.copy (i : Img) : Img := i

/-- A single-channel byte mask (`0` = background, `255` = foreground, as
produced by `cv2.inRange`). -/
structure Mask where
  width : Nat
  height : Nat
  rows : List (List Nat)
  deriving DecidableEq

def mkMask (w h : Nat) (f : Nat → Nat → Nat) : Mask :=
  ⟨w, h, (List.range h).map (fun y => (List.range w).map (fun x => f x y))⟩

/-- Mask read at natural coordinates (out of range gives `0`). -/
def Mask.atN (m : Mask) (x y : Nat) : Nat :=
  (m.rows.getD y []).getD x 0

/-- Mask read at integer coordinates with an explicit border value for
out-of-bounds positions (the morphological passes differ in exactly this
border value). -/
def Mask.atB (m : Mask) (x y : Int) (border : Nat) : Nat :=
  if 0 ≤ x ∧ x < (m.width : Int) ∧ 0 ≤ y ∧ y < (m.height : Int) then
    m.atN x.toNat y.toNat
  else border

/-- In-bounds test for integer coordinates. -/
def Mask.inB (m : Mask) (x y : Int) : Prop :=
  0 ≤ x ∧ x < (m.width : Int) ∧ 0 ≤ y ∧ y < (m.height : Int)

instance (m : Mask) (x y : Int) : Decidable (m.inB x y) := by
  unfold Mask.inB; infer_instance

/-- The program's only failure mode: OpenCV's generic untyped runtime
error (`cv2.error`), raised from inside a library call.  The repository
defines no error types of its own. -/
inductive CvErr where
  | cv2error (msg : String)
  deriving DecidableEq

instance {ε α : Type} [DecidableEq ε] [DecidableEq α] : DecidableEq (Except ε α) :=
  fun a b =>
    match a, b with
    | .ok x, .ok y => decidable_of_iff (x = y) (by simp)
    | .error e, .error f => decidable_of_iff (e = f) (by simp)
    | .ok _, .error _ => isFalse (by simp)
    | .error _, .ok _ => isFalse (by simp)

/-! ## cv2.cvtColor(·, COLOR_BGR2HSV)

OpenCV's 8-bit BGR→HSV conversion: `V = max(B,G,R)`,
`S = round(255·(V−min)/V)` (0 when `V = 0`), and `H` is the usual hue
halved into `[0,180)`, computed with OpenCV's fixed-point tables
(`(x·tab + 2^11) >> 12` with half-to-even rounded tables).  `cvtColor`
accepts only 3- or 4-channel nonempty sources and otherwise raises the
generic assertion error. -/

/-- Round-half-to-even division (the rounding used for OpenCV's
`sdiv_table`/`hdiv_table` entries, built with `cvRound`). -/
def roundHalfEvenDiv (a b : Nat) : Nat :=
  let q := a / b
  let r := a % b
  if 2 * r < b then q
  else if b < 2 * r then q + 1
  else if q % 2 = 0 then q else q + 1

def sdivTab (v : Nat) : Nat :=
  if v = 0 then 0 else roundHalfEvenDiv (255 * 4096) v

def hdivTab (d : Nat) : Nat :=
  if d = 0 then 0 else roundHalfEvenDiv (30 * 4096) d

def bgr2hsvPix (p : Nat × Nat × Nat) : Nat × Nat × Nat :=
  let b := p.1
  let g := p.2.1
  let r := p.2.2
  let v := max b (max g r)
  let mn := min b (min g r)
  let diff := v - mn
  let s := (diff * sdivTab v + 2048) / 4096
  let h0 : Int :=
    if v = r then (g : Int) - (b : Int)
    else if v = g then ((b : Int) - (r : Int)) + 2 * (diff : Int)
    else ((r : Int) - (g : Int)) + 4 * (diff : Int)
  let h1 : Int := Int.fdiv (h0 * (hdivTab diff : Int) + 2048) 4096
  let h2 : Int := if h1 < 0 then h1 + 180 else h1
  (h2.toNat, s, v)

/-- Model of `cv2.cvtColor(img, COLOR_BGR2HSV)`.  An empty source fails the
`!_src.empty()` assertion; a channel count other than 3 or 4 fails the
channel assertion; both surface as the generic `cv2.error`. -/
def cvtColorBGR2HSV (img : Img) : Except CvErr Img :=
  if img.width = 0 ∨ img.height = 0 then
    .error (.cv2error "cvtColor: !_src.empty()")
  else if img.channels = 3 ∨ img.channels = 4 then
    .ok (mkImg 3 img.width img.height (fun x y => bgr2hsvPix (img.px x y)))
  else
    .error (.cv2error "cvtColor: invalid number of channels")

/-! ## cv2.inRange and mask combination -/

/-- Model of `cv2.inRange(hsv, lower, upper)`: `255` iff every channel lies within
the inclusive bounds, else `0`. -/
def inRange (img : Img) (lo hi : Nat × Nat × Nat) : Mask :=
  mkMask img.width img.height (fun x y =>
    let p := img.px x y
    if lo.1 ≤ p.1 ∧ p.1 ≤ hi.1 ∧ lo.2.1 ≤ p.2.1 ∧ p.2.1 ≤ hi.2.1 ∧
        lo.2.2 ≤ p.2.2 ∧ p.2.2 ≤ hi.2.2 then 255 else 0)

/-- Model of `cv2.bitwise_or` on masks (per-pixel bitwise or of the bytes). -/
def bitwiseOr (a b : Mask) : Mask :=
  mkMask a.width a.height (fun x y => Nat.lor (a.atN x y) (b.atN x y))

/-- Model of `cv2.bitwise_and` on masks (per-pixel bitwise and of the bytes). -/
def bitwiseAnd (a b : Mask) : Mask :=
  mkMask a.width a.height (fun x y => Nat.land (a.atN x y) (b.atN x y))

/-! ## cv2.morphologyEx with np.ones((5,5)) and the default border

With the default `borderValue = morphologyDefaultBorderValue()`, OpenCV
substitutes `+∞` for erosion (out-of-bounds positions behave as `255`,
so the border is never eroded) and `-∞` for dilation (out-of-bounds
positions behave as `0`). -/

def offsets5 : List (Int × Int) :=
  (List.range 5).flatMap (fun j =>
    (List.range 5).map (fun i => ((i : Int) - 2, (j : Int) - 2)))

/-- Model of `cv2.erode` with the 5×5 all-ones element and default border:
minimum over the window, out-of-bounds positions contributing `255`. -/
def erode (m : Mask) : Mask :=
  mkMask m.width m.height (fun x y =>
    offsets5.foldl
      (fun acc d => min acc (m.atB ((x : Int) + d.1) ((y : Int) + d.2) 255))
      255)

/-- Model of `cv2.dilate` with the 5×5 all-ones element and default border:
maximum over the window, out-of-bounds positions contributing `0`. -/
def dilate (m : Mask) : Mask :=
  mkMask m.width m.height (fun x y =>
    offsets5.foldl
      (fun acc d => max acc (m.atB ((x : Int) + d.1) ((y : Int) + d.2) 0))
      0)

/-- Model of `cv2.morphologyEx(·, MORPH_OPEN, ·)`: erosion then dilation. -/
def morphOpen (m : Mask) : Mask := dilate (erode m)

/-- Model of `cv2.morphologyEx(·, MORPH_CLOSE, ·)`: dilation then erosion. -/
def morphClose (m : Mask) : Mask := erode (dilate m)

/-! ## cv2.GaussianBlur(·, (5,5), 0)

With `sigma = 0` and kernel size 5, `getGaussianKernel` returns the fixed
binomial kernel `[1,4,6,4,1]/16` per axis.  The uint8 path runs the
separable filter in fixed point and rounds half up; borders use the
default `BORDER_REFLECT_101` (index reflection without repeating the edge
pixel; a 1-long axis always maps to index 0). -/

/-- Model of `cv::borderInterpolate(i, n, BORDER_REFLECT_101)` (fuel-bounded
reflection; fuel 12 is ample for the ±2 offsets of a 5×5 kernel). -/
def refl101 (n : Int) : Nat → Int → Int
  | 0, _ => 0
  | fuel + 1, i =>
    if n ≤ 1 then 0
    else if i < 0 then refl101 n fuel (-i)
    else if n ≤ i then refl101 n fuel (2 * n - 2 - i)
    else i

/-- The fixed 5-tap kernel offsets with their `[1,4,6,4,1]` weights. -/
def gk5 : List (Int × Nat) := [(-2, 1), (-1, 4), (0, 6), (1, 4), (2, 1)]

def blurChannel (img : Img) (sel : Nat × Nat × Nat → Nat) (x y : Nat) : Nat :=
  (gk5.foldl
    (fun acc wy =>
      acc + wy.2 *
        (gk5.foldl
          (fun acc2 wx =>
            acc2 + wx.2 *
              sel (img.px (refl101 (img.width : Int) 12 ((x : Int) + wx.1)).toNat
                          (refl101 (img.height : Int) 12 ((y : Int) + wy.1)).toNat))
          0))
    0 + 128) / 256

/-- Model of `cv2.GaussianBlur(img, (5,5), 0)` on each channel independently. -/
def gaussianBlur5 (img : Img) : Img :=
  mkImg img.channels img.width img.height (fun x y =>
    (blurChannel img (fun p => p.1) x y,
     blurChannel img (fun p => p.2.1) x y,
     blurChannel img (fun p => p.2.2) x y))

/-! ## cv2.findContours(·, RETR_EXTERNAL, CHAIN_APPROX_SIMPLE)

The model returns, for each top-level 8-connected foreground component
(components nested inside another component's holes are skipped, as
`RETR_EXTERNAL` does), the Moore boundary trace of its outer border
starting at the component's raster-first pixel.  `CHAIN_APPROX_SIMPLE`
merely drops collinear intermediate points of the same trace, which
changes neither `contourArea` nor `boundingRect`, the only two consumers
in this program; the model keeps the uncompressed trace. -/

/-- Foreground test for contour extraction (out of bounds is background;
any nonzero byte is foreground). -/
def Mask.fgI (m : Mask) (p : Int × Int) : Bool :=
  m.atB p.1 p.2 0 ≠ 0

/-- Background test restricted to in-bounds pixels. -/
def Mask.bgIn (m : Mask) (p : Int × Int) : Bool :=
  decide (m.inB p.1 p.2) && m.atB p.1 p.2 255 = 0

def neighbors8 (p : Int × Int) : List (Int × Int) :=
  [(p.1 + 1, p.2), (p.1 + 1, p.2 + 1), (p.1, p.2 + 1), (p.1 - 1, p.2 + 1),
   (p.1 - 1, p.2), (p.1 - 1, p.2 - 1), (p.1, p.2 - 1), (p.1 + 1, p.2 - 1)]

def neighbors4 (p : Int × Int) : List (Int × Int) :=
  [(p.1 + 1, p.2), (p.1, p.2 + 1), (p.1 - 1, p.2), (p.1, p.2 - 1)]

/-- Generic fuelled breadth-first closure: pops the frontier, pushing
still-unvisited candidate neighbours (membership is marked at push time,
so the fuel `w·h+1` always suffices to exhaust a component). -/
def bfsClosure (good : Int × Int → Bool) (nbrs : Int × Int → List (Int × Int)) :
    Nat → List (Int × Int) → List (Int × Int) → List (Int × Int)
  | 0, _, visited => visited
  | _ + 1, [], visited => visited
  | fuel + 1, p :: frontier, visited =>
    let st := (nbrs p).foldl
      (fun (st : List (Int × Int) × List (Int × Int)) q =>
        if good q && !st.1.contains q then (q :: st.1, st.2 ++ [q]) else st)
      (visited, frontier)
    bfsClosure good nbrs fuel st.2 st.1

/-- The 8-connected foreground component containing `p`. -/
def component8 (m : Mask) (p : Int × Int) : List (Int × Int) :=
  bfsClosure m.fgI neighbors8 (m.width * m.height + 1) [p] [p]

/-- All border coordinates of the grid. -/
def borderCells (m : Mask) : List (Int × Int) :=
  (List.range m.height).flatMap (fun y =>
    (List.range m.width).flatMap (fun x =>
      if x = 0 ∨ x + 1 = m.width ∨ y = 0 ∨ y + 1 = m.height then
        [((x : Int), (y : Int))] else []))

/-- The background region 4-connected to the image frame.  A component
whose surrounding background is only a hole of another component does not
touch this region and is skipped by `RETR_EXTERNAL`. -/
def outerBackground (m : Mask) : List (Int × Int) :=
  let seeds := (borderCells m).filter m.bgIn
  bfsClosure m.bgIn neighbors4 (m.width * m.height + 1) seeds seeds

/-- A component is top-level when it touches the frame or the outer
background region. -/
def isTopLevel (m : Mask) (obg : List (Int × Int)) (comp : List (Int × Int)) : Bool :=
  comp.any (fun p =>
    p.1 = 0 ∨ p.1 + 1 = (m.width : Int) ∨ p.2 = 0 ∨ p.2 + 1 = (m.height : Int) ∨
    (neighbors8 p).any (fun q => obg.contains q))

/-- Clockwise Moore directions starting East (`y` grows downwards). -/
def dirOff : Nat → Int × Int
  | 0 => (1, 0)
  | 1 => (1, 1)
  | 2 => (0, 1)
  | 3 => (-1, 1)
  | 4 => (-1, 0)
  | 5 => (-1, -1)
  | 6 => (0, -1)
  | _ => (1, -1)

/-- First foreground neighbour scanning clockwise from direction index
`start`; returns the direction taken and the neighbour. -/
def findNextDir (fg : Int × Int → Bool) (c : Int × Int) (start : Nat) :
    Option (Nat × (Int × Int)) :=
  (List.range 8).findSome? (fun k =>
    let d := (start + k) % 8
    let n := (c.1 + (dirOff d).1, c.2 + (dirOff d).2)
    if fg n then some (d, n) else none)

/-- Border following: from cell `c` entered via direction `e`, keep
stepping (scanning clockwise from the backtrack side) until the first
move of the trace recurs. -/
def traceGo (fg : Int × Int → Bool) (stop : Nat × (Int × Int)) :
    Nat → Int × Int → Nat → List (Int × Int) → List (Int × Int)
  | 0, _, _, acc => acc.reverse
  | fuel + 1, c, e, acc =>
    match findNextDir fg c ((e + 6) % 8) with
    | none => (c :: acc).reverse
    | some (d, n) =>
      if (d, n) = stop then (c :: acc).reverse
      else traceGo fg stop fuel n d (c :: acc)

/-- Moore boundary trace of the component whose raster-first pixel is
`s` (the three cells above `s` and the cell to its left are background
there, so the initial clockwise scan starts at NW). -/
def traceContour (m : Mask) (s : Int × Int) : List (Int × Int) :=
  match findNextDir m.fgI s 5 with
  | none => [s]
  | some (d, n) =>
    s :: traceGo m.fgI (d, n) (8 * (m.width * m.height + 2)) n d []

/-- All grid cells in raster order (the scan order of the contour
retrieval). -/
def rasterCells (m : Mask) : List (Int × Int) :=
  (List.range m.height).flatMap (fun y =>
    (List.range m.width).map (fun x => ((x : Int), (y : Int))))

/-- Model of `cv2.findContours(mask, RETR_EXTERNAL, CHAIN_APPROX_SIMPLE)`:
outer-border traces of the top-level components, in raster order of
their starting pixels. -/
def findContours (m : Mask) : List (List (Int × Int)) :=
  let obg := outerBackground m
  (rasterCells m).foldl
    (fun (st : List (List (Int × Int)) × List (Int × Int)) p =>
      if m.fgI p && !st.2.contains p then
        let comp := component8 m p
        let done := st.2 ++ comp
        if isTopLevel m obg comp then (st.1 ++ [traceContour m p], done)
        else (st.1, done)
      else st)
    ([], [])
  |>.1

/-! ## cv2.contourArea and cv2.boundingRect -/

/-- Twice the signed shoelace sum of the closed polygon through the
contour points. -/
def shoelace2 (pts : List (Int × Int)) : Int :=
  match pts with
  | [] => 0
  | p0 :: _ =>
    (pts.zip (pts.drop 1 ++ [p0])).foldl
      (fun acc pq => acc + (pq.1.1 * pq.2.2 - pq.2.1 * pq.1.2)) 0

/-- Half of `n` as a rational, built directly from numerator and denominator
(definitionally equal to `(n : Rat) / 2`, see `halfRat_eq`, but free of
the gcd normalization that blocks kernel evaluation). -/
def halfRat (n : Nat) : Rat :=
  if h : n % 2 = 0 then
    ⟨((n / 2 : Nat) : Int), 1, one_ne_zero, Nat.coprime_one_right _⟩
  else
    ⟨(n : Int), 2, by decide, by
      have hdvd : ¬ (2 ∣ n) := by omega
      simpa [Int.natAbs_ofNat] using
        (Nat.coprime_comm.mp ((Nat.prime_two).coprime_iff_not_dvd.mpr hdvd))⟩

/-- Model of `cv2.contourArea(contour)`: the absolute Green's-formula (shoelace)
area of the polygon through the contour points — an exact multiple of
`1/2`, modelled by `Rat`. -/
def contourArea (pts : List (Int × Int)) : Rat :=
  halfRat (shoelace2 pts).natAbs

/-- An axis-aligned bounding box `(x, y, w, h)`. -/
structure Rect where
  x : Int
  y : Int
  w : Int
  h : Int
  deriving DecidableEq

/-- Model of `cv2.boundingRect(contour)`: the minimal upright rectangle containing
the contour points. -/
def boundingRect (pts : List (Int × Int)) : Rect :=
  let xs := pts.map (fun p => p.1)
  let ys := pts.map (fun p => p.2)
  let x0 := xs.foldl min (xs.getD 0 0)
  let y0 := ys.foldl min (ys.getD 0 0)
  let x1 := xs.foldl max (xs.getD 0 0)
  let y1 := ys.foldl max (ys.getD 0 0)
  ⟨x0, y0, x1 - x0 + 1, y1 - y0 + 1⟩

/-! ## Drawing: cv2.rectangle(…, thickness 2) and cv2.putText

Both source calls use fixed presentation constants (thickness 2, font
`FONT_HERSHEY_SIMPLEX` at scale 0.7).  The rectangle's 2-thick border is
modelled as the band of pixels within the one-pixel outer expansion of
the box but outside its two-pixel-deep interior; the Hershey glyph
rasterization of a label is library data, modelled by painting the
label's bounding box (12 columns per character, 16 rows above the
baseline, as OpenCV's 0.7-scale simplex font roughly occupies).  Every
claim about drawing depends only on locality of these footprints, not on
their exact ragged edges. -/

/-- The pixel band painted by `cv2.rectangle(img, (x1,y1), (x2,y2), c, 2)`. -/
def rectBand (x1 y1 x2 y2 px py : Int) : Prop :=
  (x1 - 1 ≤ px ∧ px ≤ x2 + 1 ∧ y1 - 1 ≤ py ∧ py ≤ y2 + 1) ∧
  ¬(x1 + 2 ≤ px ∧ px ≤ x2 - 2 ∧ y1 + 2 ≤ py ∧ py ≤ y2 - 2)

instance (x1 y1 x2 y2 px py : Int) : Decidable (rectBand x1 y1 x2 y2 px py) := by
  unfold rectBand; infer_instance

/-- The box painted by `cv2.putText(img, text, (ox,oy), SIMPLEX, 0.7, c, 2)`. -/
def textBox (len : Nat) (ox oy px py : Int) : Prop :=
  ox ≤ px ∧ px < ox + 12 * (len : Int) ∧ oy - 16 ≤ py ∧ py ≤ oy

instance (len : Nat) (ox oy px py : Int) : Decidable (textBox len ox oy px py) := by
  unfold textBox; infer_instance

/-- Paint `color` on every in-bounds pixel satisfying `pred` (drawing is
clipped to the image, and never changes the buffer's metadata). -/
def paint (img : Img) (pred : Int → Int → Prop) [∀ a b, Decidable (pred a b)]
    (color : Nat × Nat × Nat) : Img :=
  mkImg img.channels img.width img.height (fun x y =>
    if pred (x : Int) (y : Int) then color else img.px x y)

/-- Model of `cv2.rectangle(img, (x1,y1), (x2,y2), color, 2)`. -/
def rectangle (img : Img) (x1 y1 x2 y2 : Int) (color : Nat × Nat × Nat) : Img :=
  paint img (fun px py => rectBand x1 y1 x2 y2 px py) color

/-- Model of `cv2.putText(img, text, (ox,oy), FONT_HERSHEY_SIMPLEX, 0.7, color, 2)`. -/
def putText (img : Img) (text : String) (ox oy : Int) (color : Nat × Nat × Nat) : Img :=
  paint img (fun px py => textBox text.length ox oy px py) color

/-! ## detectar_desmatamento (processamento.py, lines 17–43) -/

/-- Lines 22–28: the soil range mask (`inRange` with lower `[10,40,40]`
and upper `[30,255,255]`) after `MORPH_OPEN` then `MORPH_CLOSE`. -/
def solo_mask (hsv : Img) : Mask :=
  morphClose (morphOpen (inRange hsv (10, 40, 40) (30, 255, 255)))

/-- Lines 34–40: the per-contour loop body of the soil detector — filter
`area > 500`, draw the yellow rectangle and the label just above its
top-left corner, accumulate the area. -/
def soloStep (st : Img × Rat) (contorno : List (Int × Int)) : Img × Rat :=
  let area := contourArea contorno
  if 500 < area then
    let bb := boundingRect contorno
    let im1 := rectangle st.1 bb.x bb.y (bb.x + bb.w) (bb.y + bb.h) (0, 255, 255)
    let im2 := putText im1 "Desmatamento" bb.x (bb.y - 10) (0, 255, 255)
    (im2, st.2 + area)
  else st

/-- Lines 19–43 on a decoded image. -/
def detectar_desmatamento_core (imagem : Img) : Except CvErr (Img × Rat) :=
  match cvtColorBGR2HSV imagem with
  | .error e => .error e
  | .ok hsv =>
    let mascara_solo := solo_mask hsv
    let contornos := findContours mascara_solo
    let st := contornos.foldl soloStep (imagem.copy, 0)
    .ok st

/-- The function `detectar_desmatamento(imagem)`.  A missing image (Python `None`)
becomes an empty Mat at the binding layer and fails the `!_src.empty()`
assertion inside `cv2.cvtColor`, the first library call. -/
def detectar_desmatamento (imagem : Option Img) : Except CvErr (Img × Rat) :=
  match imagem with
  | none => .error (.cv2error "cvtColor: !_src.empty()")
  | some img => detectar_desmatamento_core img

/-! ## detectar_focos_incendio (processamento.py, lines 46–98) -/

/-- Lines 57–78: two hue ranges (`[0,20]` and `[170,180]`, full
saturation/value), their union, the `Value ≥ 215` brightness mask, and
the intersection of the two. -/
def mascara_final_of (hsv : Img) : Mask :=
  let mask_hue1 := inRange hsv (0, 0, 0) (20, 255, 255)
  let mask_hue2 := inRange hsv (170, 0, 0) (180, 255, 255)
  let mask_hue := bitwiseOr mask_hue1 mask_hue2
  let mask_val := inRange hsv (0, 0, 215) (180, 255, 255)
  bitwiseAnd mask_hue mask_val

/-- Lines 57–83: the combined fire mask after `MORPH_OPEN` then
`MORPH_DILATE`. -/
def fire_mask (hsv : Img) : Mask :=
  dilate (morphOpen (mascara_final_of hsv))

/-- Lines 91–96: the per-contour loop body of the fire detector — filter
`area > 30`, draw the red rectangle and label, count the hotspot. -/
def focoStep (st : Img × Nat) (contorno : List (Int × Int)) : Img × Nat :=
  if 30 < contourArea contorno then
    let bb := boundingRect contorno
    let im1 := rectangle st.1 bb.x bb.y (bb.x + bb.w) (bb.y + bb.h) (0, 0, 255)
    let im2 := putText im1 "Foco de Incendio" bb.x (bb.y - 10) (0, 0, 255)
    (im2, st.2 + 1)
  else st

/-- Lines 52–98 on a decoded image.  `GaussianBlur` is the first library
call, so an empty image fails there. -/
def detectar_focos_incendio_core (imagem : Img) : Except CvErr (Img × Nat) :=
  if imagem.width = 0 ∨ imagem.height = 0 then
    .error (.cv2error "GaussianBlur: !_src.empty()")
  else
    let blurred := gaussianBlur5 imagem
    match cvtColorBGR2HSV blurred with
    | .error e => .error e
    | .ok hsv =>
      let mascara_final := fire_mask hsv
      let contornos := findContours mascara_final
      let st := contornos.foldl focoStep (imagem.copy, 0)
      .ok st

/-- The function `detectar_focos_incendio(imagem)`.  A missing image becomes an
empty Mat and fails inside `cv2.GaussianBlur`, the first library call. -/
def detectar_focos_incendio (imagem : Option Img) : Except CvErr (Img × Nat) :=
  match imagem with
  | none => .error (.cv2error "GaussianBlur: !_src.empty()")
  | some img => detectar_focos_incendio_core img

/-! ## Heap-level detectors

The value-level detectors above capture the data flow; the Python
functions additionally have aliasing behaviour: `cv2.rectangle` and
`cv2.putText` mutate their first argument in place, and `imagem.copy()`
allocates a fresh buffer.  The heap-level variants model numpy buffers as
slots of a `List Img` and references as indices, with every draw an
in-place `List.set` on the referenced slot — making "the detectors never
touch the caller's buffer" a provable statement rather than a vacuous
one. -/

def emptyImg : Img := ⟨3, 0, 0, []⟩

/-- In-place `cv2.rectangle` on the buffer at index `i`. -/
def rectangleMem (heap : List Img) (i : Nat) (x1 y1 x2 y2 : Int)
    (color : Nat × Nat × Nat) : List Img :=
  heap.set i (rectangle (heap.getD i emptyImg) x1 y1 x2 y2 color)

/-- In-place `cv2.putText` on the buffer at index `i`. -/
def putTextMem (heap : List Img) (i : Nat) (text : String) (ox oy : Int)
    (color : Nat × Nat × Nat) : List Img :=
  heap.set i (putText (heap.getD i emptyImg) text ox oy color)

/-- The soil loop body acting on the heap, drawing on buffer `r`. -/
def soloStepMem (r : Nat) (st : List Img × Rat) (contorno : List (Int × Int)) :
    List Img × Rat :=
  let area := contourArea contorno
  if 500 < area then
    let bb := boundingRect contorno
    let h1 := rectangleMem st.1 r bb.x bb.y (bb.x + bb.w) (bb.y + bb.h) (0, 255, 255)
    let h2 := putTextMem h1 r "Desmatamento" bb.x (bb.y - 10) (0, 255, 255)
    (h2, st.2 + area)
  else st

/-- The detector `detectar_desmatamento` with explicit buffers: the argument is a
reference into the heap, `imagem.copy()` allocates a new slot, and all
drawing mutates only that slot.  Returns the final heap, the reference
to the annotated buffer, and the accumulated area. -/
def detectar_desmatamento_mem (heap : List Img) (imagem : Nat) :
    Except CvErr (List Img × Nat × Rat) :=
  let img := heap.getD imagem emptyImg
  match cvtColorBGR2HSV img with
  | .error e => .error e
  | .ok hsv =>
    let mascara_solo := solo_mask hsv
    let contornos := findContours mascara_solo
    let r := heap.length
    let heap1 := heap ++ [img.copy]
    let st := contornos.foldl (soloStepMem r) (heap1, 0)
    .ok (st.1, r, st.2)

/-- The fire loop body acting on the heap, drawing on buffer `r`. -/
def focoStepMem (r : Nat) (st : List Img × Nat) (contorno : List (Int × Int)) :
    List Img × Nat :=
  if 30 < contourArea contorno then
    let bb := boundingRect contorno
    let h1 := rectangleMem st.1 r bb.x bb.y (bb.x + bb.w) (bb.y + bb.h) (0, 0, 255)
    let h2 := putTextMem h1 r "Foco de Incendio" bb.x (bb.y - 10) (0, 0, 255)
    (h2, st.2 + 1)
  else st

/-- The detector `detectar_focos_incendio` with explicit buffers. -/
def detectar_focos_incendio_mem (heap : List Img) (imagem : Nat) :
    Except CvErr (List Img × Nat × Nat) :=
  let img := heap.getD imagem emptyImg
  if img.width = 0 ∨ img.height = 0 then
    .error (.cv2error "GaussianBlur: !_src.empty()")
  else
    let blurred := gaussianBlur5 img
    match cvtColorBGR2HSV blurred with
    | .error e => .error e
    | .ok hsv =>
      let mascara_final := fire_mask hsv
      let contornos := findContours mascara_final
      let r := heap.length
      let heap1 := heap ++ [img.copy]
      let st := contornos.foldl (focoStepMem r) (heap1, 0)
      .ok (st.1, r, st.2)

/-! ## Test images and specification-side definitions -/

/-- The three-pixel HSV probe used by the specification: hue 2 (low
red), hue 178 (high red), hue 90 (green), all fully saturated and
bright. -/
def hsvProbe : Img :=
  ⟨3, 3, 1, [[(2, 255, 255), (178, 255, 255), (90, 255, 255)]]⟩

/-- The 1×1 valid black test image. -/
def wImg : Img := mkImg 3 1 1 (fun _ _ => (0, 0, 0))

/-- A 2×2 4-channel image (alpha plane irrelevant to every modelled
operation). -/
def bgra2 : Img := mkImg 4 2 2 (fun _ _ => (0, 0, 0))

/-- A 2×2 single-channel (grayscale) image: an unsupported channel
count for `COLOR_BGR2HSV`. -/
def gray2 : Img := mkImg 1 2 2 (fun _ _ => (0, 0, 0))

/-- Erosion as the specification's border rule describes it (spec §4.3:
"pixels outside the image bounds are treated as background
(non-foreground) for neighborhood tests"): the out-of-bounds border
value is `0` instead of OpenCV's default `255`.  Stated only for
comparison against the source-faithful `erode`. -/
def erodeSpecBorder (m : Mask) : Mask :=
  mkMask m.width m.height (fun x y =>
    offsets5.foldl
      (fun acc d => min acc (m.atB ((x : Int) + d.1) ((y : Int) + d.2) 0))
      255)

/-- The all-foreground 3×3 mask (every 5×5 window leaves the bounds). -/
def full3 : Mask := mkMask 3 3 (fun _ _ => 255)

/-- The 3×3 all-255 mask written out literally. -/
def lit3 : Mask := ⟨3, 3, [[255, 255, 255], [255, 255, 255], [255, 255, 255]]⟩

/-- The 3×3 all-0 mask written out literally. -/
def zlit3 : Mask := ⟨3, 3, [[0, 0, 0], [0, 0, 0], [0, 0, 0]]⟩

/-- One annotation of the soil detector: the yellow `(B,G,R) = (0,255,255)`
bounding rectangle and the label "Desmatamento" just above the box's
top-left corner. -/
def drawSoloRegion (im : Img) (c : List (Int × Int)) : Img :=
  let bb := boundingRect c
  putText (rectangle im bb.x bb.y (bb.x + bb.w) (bb.y + bb.h) (0, 255, 255))
    "Desmatamento" bb.x (bb.y - 10) (0, 255, 255)

/-- The soil-exposure pipeline exactly as the specification sentence
describes it, stage by stage: convert to HSV; build a single range mask
with inclusive bounds Hue ∈ [10,30], Sat ∈ [40,255], Val ∈ [40,255];
apply morphological open then close (5×5 all-foreground element);
extract external connected regions; keep exactly the regions whose area
is strictly greater than 500; draw each kept region's yellow bounding
rectangle and label on a copy of the input; return that annotated copy
with the sum of the kept regions' areas. -/
def soilPipelineSpec (img : Img) : Except CvErr (Img × Rat) :=
  match cvtColorBGR2HSV img with
  | .error e => .error e
  | .ok hsv =>
    let kept := (findContours (morphClose (morphOpen
        (inRange hsv (10, 40, 40) (30, 255, 255))))).filter
      (fun c => 500 < contourArea c)
    .ok (kept.foldl drawSoloRegion img.copy, (kept.map contourArea).sum)

/-- One annotation of the fire detector: the red bounding rectangle and
the label "Foco de Incendio" just above the box's top-left corner. -/
def drawFocoRegion (im : Img) (c : List (Int × Int)) : Img :=
  let bb := boundingRect c
  putText (rectangle im bb.x bb.y (bb.x + bb.w) (bb.y + bb.h) (0, 0, 255))
    "Foco de Incendio" bb.x (bb.y - 10) (0, 0, 255)

/-- The 6×6 uniformly pure-red image: every pixel is BGR `(0,0,255)`,
so the whole blurred frame passes the fire mask. -/
def red6 : Img := mkImg 3 6 6 (fun _ _ => (0, 0, 255))

/-- The HSV buffer the fire detector derives from the blurred input. -/
def fireHSV (img : Img) : Img :=
  mkImg 3 (gaussianBlur5 img).width (gaussianBlur5 img).height
    (fun x y => bgr2hsvPix ((gaussianBlur5 img).px x y))

/-- The pixel footprint of one fire annotation: the rectangle band plus
the label box (the label "Foco de Incendio" has 16 characters). -/
def fireDrawFootprint (c : List (Int × Int)) (px py : Int) : Prop :=
  rectBand (boundingRect c).x (boundingRect c).y
    ((boundingRect c).x + (boundingRect c).w)
    ((boundingRect c).y + (boundingRect c).h) px py ∨
  textBox 16 (boundingRect c).x ((boundingRect c).y - 10) px py

instance (c : List (Int × Int)) (px py : Int) : Decidable (fireDrawFootprint c px py) := by
  unfold fireDrawFootprint
  infer_instance

/-- The 1×1 pure-green image (bright but not red-hued: no hotspot). -/
def green1 : Img := mkImg 3 1 1 (fun _ _ => (0, 255, 0))

/-! ## Grid access lemmas -/

theorem grid_getD {α : Type} (dflt : α) (w h : Nat) (f : Nat → Nat → α) (x y : Nat) :
    (((List.range h).map (fun y => (List.range w).map (fun x => f x y))).getD y []).getD x dflt
      = if x < w ∧ y < h then f x y else dflt := by
  by_cases hy : y < h
  · have hrow : ((List.range h).map (fun y => (List.range w).map (fun x => f x y))).getD y []
        = (List.range w).map (fun x => f x y) := by
      rw [List.getD_eq_getElem?_getD, List.getElem?_map, List.getElem?_range hy]
      rfl
    rw [hrow]
    by_cases hx : x < w
    · rw [List.getD_eq_getElem?_getD, List.getElem?_map, List.getElem?_range hx]
      simp [hx, hy]
    · rw [List.getD_eq_getElem?_getD, List.getElem?_map,
        List.getElem?_eq_none (by simpa using Nat.le_of_not_lt hx)]
      simp [hx]
  · have hrow : ((List.range h).map (fun y => (List.range w).map (fun x => f x y))).getD y []
        = [] := by
      rw [List.getD_eq_getElem?_getD,
        List.getElem?_eq_none (by simpa using Nat.le_of_not_lt hy)]
      rfl
    rw [hrow]
    simp [hy]

theorem mkMask_atN (w h : Nat) (f : Nat → Nat → Nat) (x y : Nat) :
    (mkMask w h f).atN x y = if x < w ∧ y < h then f x y else 0 :=
  grid_getD 0 w h f x y

theorem mkImg_px (ch w h : Nat) (f : Nat → Nat → Nat × Nat × Nat) (x y : Nat) :
    (mkImg ch w h f).px x y = if x < w ∧ y < h then f x y else (0, 0, 0) :=
  grid_getD (0, 0, 0) w h f x y

theorem halfRat_eq (n : Nat) : halfRat n = (n : Rat) / 2 := by
  unfold halfRat
  split
  · rename_i h
    obtain ⟨k, hk⟩ : ∃ k, n = 2 * k := ⟨n / 2, by omega⟩
    subst hk
    rw [Rat.mk'_eq_divInt, Rat.divInt_eq_div]
    push_cast [Nat.mul_div_cancel_left _ (by norm_num : 0 < 2)]
    ring
  · rw [Rat.mk'_eq_divInt, Rat.divInt_eq_div]
    norm_num

theorem contourArea_eq (pts : List (Int × Int)) :
    contourArea pts = ((shoelace2 pts).natAbs : Rat) / 2 := by
  unfold contourArea; exact halfRat_eq _

/-! ## Generic helper lemmas -/

theorem foldl_preserves {α σ : Type _} (P : σ → Prop) (f : σ → α → σ) :
    ∀ (l : List α) (s : σ), P s → (∀ s a, a ∈ l → P s → P (f s a)) → P (l.foldl f s) := by
  intro l
  induction l with
  | nil => intro s h0 _; exact h0
  | cons a t ih =>
    intro s h0 hstep
    exact ih _ (hstep _ _ (by simp) h0)
      (fun s b hb hs => hstep s b (by simp [hb]) hs)

theorem foldl_min_ge {k : Nat} :
    ∀ (l : List Nat) (i : Nat), (k ≤ l.foldl min i ↔ k ≤ i ∧ ∀ v ∈ l, k ≤ v) := by
  intro l
  induction l with
  | nil => simp
  | cons a t ih =>
    intro i
    simp only [List.foldl_cons, ih, Nat.le_min, List.mem_cons]
    constructor
    · rintro ⟨⟨hi, ha⟩, ht⟩
      exact ⟨hi, fun v hv => hv.elim (fun e => e ▸ ha) (ht v)⟩
    · rintro ⟨hi, hall⟩
      exact ⟨⟨hi, hall a (Or.inl rfl)⟩, fun v hv => hall v (Or.inr hv)⟩

theorem foldl_min_le_init : ∀ (l : List Nat) (i : Nat), l.foldl min i ≤ i := by
  intro l
  induction l with
  | nil => simp
  | cons a t ih =>
    intro i
    exact le_trans (ih (min i a)) (Nat.min_le_left i a)

theorem foldl_max_ge {k : Nat} :
    ∀ (l : List Nat) (i : Nat), (k ≤ l.foldl max i ↔ k ≤ i ∨ ∃ v ∈ l, k ≤ v) := by
  intro l
  induction l with
  | nil => simp
  | cons a t ih =>
    intro i
    simp only [List.foldl_cons, ih, List.mem_cons, le_max_iff]
    constructor
    · rintro ((hi | ha) | ⟨v, hv, hkv⟩)
      · exact Or.inl hi
      · exact Or.inr ⟨a, Or.inl rfl, ha⟩
      · exact Or.inr ⟨v, Or.inr hv, hkv⟩
    · rintro (hi | ⟨v, rfl | hv, hkv⟩)
      · exact Or.inl (Or.inl hi)
      · exact Or.inl (Or.inr hkv)
      · exact Or.inr ⟨v, hv, hkv⟩

theorem foldl_max_le : ∀ (l : List Nat) (i k : Nat), i ≤ k → (∀ v ∈ l, v ≤ k) →
    l.foldl max i ≤ k := by
  intro l
  induction l with
  | nil => intro i k hi _; simpa using hi
  | cons a t ih =>
    intro i k hi hall
    exact ih _ _ (Nat.max_le.mpr ⟨hi, hall a (by simp)⟩)
      (fun v hv => hall v (by simp [hv]))

theorem getD_append_lt {α : Type} (l t : List α) (i : Nat) (d : α) (h : i < l.length) :
    (l ++ t).getD i d = l.getD i d := by
  rw [List.getD_eq_getElem?_getD, List.getD_eq_getElem?_getD,
    List.getElem?_append]
  simp [h]

theorem getD_append_len {α : Type} (l : List α) (a d : α) :
    (l ++ [a]).getD l.length d = a := by
  rw [List.getD_eq_getElem?_getD]
  rw [List.getElem?_append_right (le_refl _)]
  simp

theorem set_append_len {α : Type} : ∀ (l : List α) (a b : α),
    (l ++ [a]).set l.length b = l ++ [b] := by
  intro l
  induction l with
  | nil => intro a b; rfl
  | cons x t ih => intro a b; simp [List.set, ih]

/-! ## The heap-level detectors refine the value-level ones -/

theorem soloStepMem_append (pre : List Img) (im : Img) (a : Rat) (c : List (Int × Int)) :
    soloStepMem pre.length (pre ++ [im], a) c
      = (pre ++ [(soloStep (im, a) c).1], (soloStep (im, a) c).2) := by
  unfold soloStepMem soloStep rectangleMem putTextMem
  by_cases hc : 500 < contourArea c
  · simp only [if_pos hc, getD_append_len, set_append_len]
  · simp only [if_neg hc]

theorem solo_foldMem (l : List (List (Int × Int))) :
    ∀ (pre : List Img) (im : Img) (a : Rat),
      l.foldl (soloStepMem pre.length) (pre ++ [im], a)
        = (pre ++ [(l.foldl soloStep (im, a)).1], (l.foldl soloStep (im, a)).2) := by
  induction l with
  | nil => intro pre im a; rfl
  | cons c t ih =>
    intro pre im a
    simp only [List.foldl_cons, soloStepMem_append]
    rw [ih pre]

theorem focoStepMem_append (pre : List Img) (im : Img) (n : Nat) (c : List (Int × Int)) :
    focoStepMem pre.length (pre ++ [im], n) c
      = (pre ++ [(focoStep (im, n) c).1], (focoStep (im, n) c).2) := by
  unfold focoStepMem focoStep rectangleMem putTextMem
  by_cases hc : 30 < contourArea c
  · simp only [if_pos hc, getD_append_len, set_append_len]
  · simp only [if_neg hc]

theorem foco_foldMem (l : List (List (Int × Int))) :
    ∀ (pre : List Img) (im : Img) (n : Nat),
      l.foldl (focoStepMem pre.length) (pre ++ [im], n)
        = (pre ++ [(l.foldl focoStep (im, n)).1], (l.foldl focoStep (im, n)).2) := by
  induction l with
  | nil => intro pre im n; rfl
  | cons c t ih =>
    intro pre im n
    simp only [List.foldl_cons, focoStepMem_append]
    rw [ih pre]

theorem detectar_desmatamento_mem_eq (heap : List Img) (i : Nat) :
    detectar_desmatamento_mem heap i
      = match detectar_desmatamento_core (heap.getD i emptyImg) with
        | .error e => .error e
        | .ok (ann, a) => .ok (heap ++ [ann], heap.length, a) := by
  cases h : cvtColorBGR2HSV (heap.getD i emptyImg) with
  | error e =>
    simp only [detectar_desmatamento_mem, detectar_desmatamento_core, h]
  | ok hsv =>
    simp only [detectar_desmatamento_mem, detectar_desmatamento_core, h, solo_foldMem]

theorem detectar_focos_incendio_mem_eq (heap : List Img) (i : Nat) :
    detectar_focos_incendio_mem heap i
      = match detectar_focos_incendio_core (heap.getD i emptyImg) with
        | .error e => .error e
        | .ok (ann, n) => .ok (heap ++ [ann], heap.length, n) := by
  by_cases hz : (heap.getD i emptyImg).width = 0 ∨ (heap.getD i emptyImg).height = 0
  · simp only [detectar_focos_incendio_mem, detectar_focos_incendio_core, if_pos hz]
  · cases h : cvtColorBGR2HSV (gaussianBlur5 (heap.getD i emptyImg)) with
    | error e =>
      simp only [detectar_focos_incendio_mem, detectar_focos_incendio_core, if_neg hz, h]
    | ok hsv =>
      simp only [detectar_focos_incendio_mem, detectar_focos_incendio_core, if_neg hz, h,
        foco_foldMem]

/-! ## Metadata preservation -/

theorem mkImg_channels (ch w h : Nat) (f : Nat → Nat → Nat × Nat × Nat) :
    (mkImg ch w h f).channels = ch := rfl

theorem mkImg_width (ch w h : Nat) (f : Nat → Nat → Nat × Nat × Nat) :
    (mkImg ch w h f).width = w := rfl

theorem mkImg_height (ch w h : Nat) (f : Nat → Nat → Nat × Nat × Nat) :
    (mkImg ch w h f).height = h := rfl

theorem gaussianBlur5_meta (img : Img) :
    (gaussianBlur5 img).channels = img.channels ∧ (gaussianBlur5 img).width = img.width ∧
      (gaussianBlur5 img).height = img.height := ⟨rfl, rfl, rfl⟩

theorem rectangle_meta (img : Img) (x1 y1 x2 y2 : Int) (c : Nat × Nat × Nat) :
    (rectangle img x1 y1 x2 y2 c).channels = img.channels ∧
      (rectangle img x1 y1 x2 y2 c).width = img.width ∧
      (rectangle img x1 y1 x2 y2 c).height = img.height := ⟨rfl, rfl, rfl⟩

theorem putText_meta (img : Img) (t : String) (ox oy : Int) (c : Nat × Nat × Nat) :
    (putText img t ox oy c).channels = img.channels ∧
      (putText img t ox oy c).width = img.width ∧
      (putText img t ox oy c).height = img.height := ⟨rfl, rfl, rfl⟩

/-- Helper: `atB` at an in-bounds coordinate reads the mask. -/
theorem atB_in (m : Mask) (x y : Int) (b : Nat) (h : m.inB x y) :
    m.atB x y b = m.atN x.toNat y.toNat := by
  unfold Mask.inB at h
  unfold Mask.atB
  exact if_pos h

/-- Helper: `atB` out of bounds reads the border value. -/
theorem atB_out (m : Mask) (x y : Int) (b : Nat) (h : ¬ m.inB x y) :
    m.atB x y b = b := by
  unfold Mask.inB at h
  unfold Mask.atB
  exact if_neg h

/-! ## Claim C2 -/

theorem mkMask_width (w h : Nat) (f : Nat → Nat → Nat) : (mkMask w h f).width = w := rfl

theorem mkMask_height (w h : Nat) (f : Nat → Nat → Nat) : (mkMask w h f).height = h := rfl

theorem bitwiseAnd_atN (a b : Mask) (x y : Nat) (hx : x < a.width) (hy : y < a.height) :
    (bitwiseAnd a b).atN x y = Nat.land (a.atN x y) (b.atN x y) := by
  unfold bitwiseAnd
  rw [mkMask_atN, if_pos ⟨hx, hy⟩]

theorem bitwiseOr_atN (a b : Mask) (x y : Nat) (hx : x < a.width) (hy : y < a.height) :
    (bitwiseOr a b).atN x y = Nat.lor (a.atN x y) (b.atN x y) := by
  unfold bitwiseOr
  rw [mkMask_atN, if_pos ⟨hx, hy⟩]

theorem inRange_atN (img : Img) (lo hi : Nat × Nat × Nat) (x y : Nat)
    (hx : x < img.width) (hy : y < img.height) :
    (inRange img lo hi).atN x y =
      if lo.1 ≤ (img.px x y).1 ∧ (img.px x y).1 ≤ hi.1 ∧
          lo.2.1 ≤ (img.px x y).2.1 ∧ (img.px x y).2.1 ≤ hi.2.1 ∧
          lo.2.2 ≤ (img.px x y).2.2 ∧ (img.px x y).2.2 ≤ hi.2.2 then 255 else 0 := by
  unfold inRange
  rw [mkMask_atN, if_pos ⟨hx, hy⟩]

/-- C2: a pixel of the (blurred) HSV image is foreground in the fire
detector's combined mask iff its hue lies in `[0,20]` or in `[170,180]`
(the union of the two red ranges, with saturation and value
unrestricted) and simultaneously its value is at least 215 (the
intersection with the brightness mask). -/
theorem C2_fire_mask_pixel_rule (hsv : Img) (x y : Nat)
    (hx : x < hsv.width) (hy : y < hsv.height)
    (hh : (hsv.px x y).1 ≤ 255) (hs : (hsv.px x y).2.1 ≤ 255)
    (hv : (hsv.px x y).2.2 ≤ 255) :
    ((mascara_final_of hsv).atN x y = 255 ↔
      (((hsv.px x y).1 ≤ 20 ∨ (170 ≤ (hsv.px x y).1 ∧ (hsv.px x y).1 ≤ 180)) ∧
        215 ≤ (hsv.px x y).2.2)) := by
  have l2 : Nat.lor 255 0 = 255 := by decide
  have l3 : Nat.lor 0 255 = 255 := by decide
  have l4 : Nat.lor 0 0 = 0 := by decide
  have m1 : Nat.land 255 255 = 255 := by decide
  have m2 : Nat.land 255 0 = 0 := by decide
  have m3 : Nat.land 0 255 = 0 := by decide
  have m4 : Nat.land 0 0 = 0 := by decide
  unfold mascara_final_of
  rw [bitwiseAnd_atN _ _ _ _ hx hy, bitwiseOr_atN _ _ _ _ hx hy,
    inRange_atN hsv _ _ _ _ hx hy, inRange_atN hsv _ _ _ _ hx hy,
    inRange_atN hsv _ _ _ _ hx hy]
  by_cases c1 : (hsv.px x y).1 ≤ 20 <;>
    by_cases c2 : 170 ≤ (hsv.px x y).1 <;>
      by_cases c3 : (hsv.px x y).1 ≤ 180 <;>
        by_cases c4 : 215 ≤ (hsv.px x y).2.2 <;>
          simp [c1, c2, c3, c4, hh, hs, hv, l2, l3, l4, m1, m2, m3, m4] <;>
            omega

theorem C2_witness :
    ((0 : Nat) < 3 ∧ (0 : Nat) < 1) ∧
    (mascara_final_of hsvProbe).atN 0 0 = 255 ∧
    (mascara_final_of hsvProbe).atN 1 0 = 255 ∧
    (mascara_final_of hsvProbe).atN 2 0 ≠ 255 :=
  ⟨⟨by decide, by decide⟩,
    (C2_fire_mask_pixel_rule hsvProbe 0 0 (by decide) (by decide) (by decide) (by decide)
      (by decide)).mpr (by decide),
    (C2_fire_mask_pixel_rule hsvProbe 1 0 (by decide) (by decide) (by decide) (by decide)
      (by decide)).mpr (by decide),
    fun hm =>
      absurd ((C2_fire_mask_pixel_rule hsvProbe 2 0 (by decide) (by decide) (by decide)
        (by decide) (by decide)).mp hm) (by decide)⟩

/-! ## Claim C4 -/

/-- C4 counterexample: a missing (`None`) or zero-dimension input makes
each detector fail inside its first OpenCV call with the library's
generic untyped `cv2.error` — the repository defines no typed
`InvalidImageFormat` error anywhere (the code's only error shape is
`CvErr.cv2error`) — and a 4-channel (wrong-channel-count) image is not
rejected at all: both detectors accept it and return a result. -/
theorem C4_counterexample :
    detectar_desmatamento none = .error (.cv2error "cvtColor: !_src.empty()") ∧
    detectar_desmatamento (some emptyImg) = .error (.cv2error "cvtColor: !_src.empty()") ∧
    detectar_focos_incendio none = .error (.cv2error "GaussianBlur: !_src.empty()") ∧
    detectar_focos_incendio (some emptyImg) = .error (.cv2error "GaussianBlur: !_src.empty()") ∧
    detectar_desmatamento (some bgra2) = .ok (bgra2, 0) ∧
    detectar_focos_incendio (some bgra2) = .ok (bgra2, 0) := by
  refine ⟨rfl, by decide, rfl, by decide, by decide, by decide⟩

/-- C4 (amended): calling either detector with a missing (`None`),
zero-dimension, or unsupported-channel-count (neither 3 nor 4) image
raises OpenCV's generic untyped error (`cv2.error`) and produces no
partial result; there is no typed `InvalidImageFormat`.  The raising
call differs by case: a missing or zero-dimension image fails the
`!_src.empty()` assertion inside the *first* library call — `cvtColor`
for the soil detector, `GaussianBlur` for the fire detector — while an
unsupported channel count fails inside `cvtColor`, which is the soil
detector's first library call but only the fire detector's *second*,
because `GaussianBlur` accepts any channel count and blurs the image
before the conversion is attempted.  (A 4-channel image is accepted
outright: see the counterexample.) -/
theorem C4_invalid_input_raises_generic_cv2_error (i : Option Img)
    (h : i = none ∨ ∃ img, i = some img ∧
      (img.width = 0 ∨ img.height = 0 ∨ (img.channels ≠ 3 ∧ img.channels ≠ 4))) :
    ((i = none ∨ ∃ img, i = some img ∧ (img.width = 0 ∨ img.height = 0)) →
      detectar_desmatamento i = .error (.cv2error "cvtColor: !_src.empty()")) ∧
    (∀ img, i = some img → 0 < img.width → 0 < img.height →
      detectar_desmatamento i = .error (.cv2error "cvtColor: invalid number of channels")) ∧
    ((i = none ∨ ∃ img, i = some img ∧ (img.width = 0 ∨ img.height = 0)) →
      detectar_focos_incendio i = .error (.cv2error "GaussianBlur: !_src.empty()")) ∧
    (∀ img, i = some img → 0 < img.width → 0 < img.height →
      detectar_focos_incendio i = .error (.cv2error "cvtColor: invalid number of channels")) := by
  rcases h with rfl | ⟨img, rfl, hbad⟩
  · exact ⟨fun _ => rfl, fun img2 himg => Option.noConfusion himg,
      fun _ => rfl, fun img2 himg => Option.noConfusion himg⟩
  · refine ⟨?_, ?_, ?_, ?_⟩
    · rintro (h0 | ⟨img2, heq, hz⟩)
      · exact Option.noConfusion h0
      · obtain rfl : img = img2 := Option.some.inj heq
        have hcv : cvtColorBGR2HSV img = .error (.cv2error "cvtColor: !_src.empty()") := by
          unfold cvtColorBGR2HSV
          rw [if_pos hz]
        show detectar_desmatamento_core img = _
        unfold detectar_desmatamento_core
        rw [hcv]
    · intro img2 heq hw hh
      obtain rfl : img = img2 := Option.some.inj heq
      have hcbad : img.channels ≠ 3 ∧ img.channels ≠ 4 := by
        rcases hbad with h0 | h0 | h0
        · omega
        · omega
        · exact h0
      have hcv : cvtColorBGR2HSV img
          = .error (.cv2error "cvtColor: invalid number of channels") := by
        unfold cvtColorBGR2HSV
        rw [if_neg (by omega), if_neg (by tauto)]
      show detectar_desmatamento_core img = _
      unfold detectar_desmatamento_core
      rw [hcv]
    · rintro (h0 | ⟨img2, heq, hz⟩)
      · exact Option.noConfusion h0
      · obtain rfl : img = img2 := Option.some.inj heq
        show detectar_focos_incendio_core img = _
        unfold detectar_focos_incendio_core
        rw [if_pos hz]
    · intro img2 heq hw hh
      obtain rfl : img = img2 := Option.some.inj heq
      have hcbad : img.channels ≠ 3 ∧ img.channels ≠ 4 := by
        rcases hbad with h0 | h0 | h0
        · omega
        · omega
        · exact h0
      have hz : ¬ (img.width = 0 ∨ img.height = 0) := by omega
      have hcv : cvtColorBGR2HSV (gaussianBlur5 img)
          = .error (.cv2error "cvtColor: invalid number of channels") := by
        unfold cvtColorBGR2HSV
        rw [if_neg (by simpa [gaussianBlur5, mkImg_width, mkImg_height] using hz),
          if_neg (by simpa [gaussianBlur5, mkImg_channels] using
            (by tauto : ¬ (img.channels = 3 ∨ img.channels = 4)))]
      show detectar_focos_incendio_core img = _
      simp only [detectar_focos_incendio_core, if_neg hz, hcv]

/-- C9: neither detector mutates its input buffer.  In the heap model
every drawing call is an in-place update of the freshly allocated copy
(slot `heap.length`), so whenever a detector returns, the caller's
buffer at slot `i` holds exactly the pixels it held before the call. -/
theorem C9_detectors_never_mutate_input (heap : List Img) (i : Nat)
    (hi : i < heap.length) :
    (∀ h1 r a, detectar_desmatamento_mem heap i = .ok (h1, r, a) →
      h1.getD i emptyImg = heap.getD i emptyImg) ∧
    (∀ h1 r n, detectar_focos_incendio_mem heap i = .ok (h1, r, n) →
      h1.getD i emptyImg = heap.getD i emptyImg) := by
  constructor
  · intro h1 r a he
    rw [detectar_desmatamento_mem_eq] at he
    rcases hcore : detectar_desmatamento_core (heap.getD i emptyImg) with e | ⟨ann, a2⟩ <;>
      rw [hcore] at he
    · exact absurd he (by simp)
    · simp only [Except.ok.injEq, Prod.mk.injEq] at he
      rw [← he.1]
      exact getD_append_lt heap [ann] i emptyImg hi
  · intro h1 r n he
    rw [detectar_focos_incendio_mem_eq] at he
    rcases hcore : detectar_focos_incendio_core (heap.getD i emptyImg) with e | ⟨ann, n2⟩ <;>
      rw [hcore] at he
    · exact absurd he (by simp)
    · simp only [Except.ok.injEq, Prod.mk.injEq] at he
      rw [← he.1]
      exact getD_append_lt heap [ann] i emptyImg hi

theorem C9_witness :
    (0 < [wImg].length) ∧
    [wImg, wImg].getD 0 emptyImg = [wImg].getD 0 emptyImg ∧
    [wImg, wImg].getD 0 emptyImg = [wImg].getD 0 emptyImg :=
  ⟨by decide,
    (C9_detectors_never_mutate_input [wImg] 0 (by decide)).1 [wImg, wImg] 1 0 (by decide),
    (C9_detectors_never_mutate_input [wImg] 0 (by decide)).2 [wImg, wImg] 1 0 (by decide)⟩

/-- C8: both detectors are deterministic and idempotent across runs.
Running a detector a second time on the same (unmutated — see C9) input
slot yields the same scalar summary and a bit-identical annotated output
buffer. -/
theorem C8_detectors_deterministic_reruns (heap : List Img) (i : Nat)
    (hi : i < heap.length) :
    (∀ h1 r1 a1, detectar_desmatamento_mem heap i = .ok (h1, r1, a1) →
      ∃ h2 r2, detectar_desmatamento_mem h1 i = .ok (h2, r2, a1) ∧
        h2.getD r2 emptyImg = h1.getD r1 emptyImg) ∧
    (∀ h1 r1 n1, detectar_focos_incendio_mem heap i = .ok (h1, r1, n1) →
      ∃ h2 r2, detectar_focos_incendio_mem h1 i = .ok (h2, r2, n1) ∧
        h2.getD r2 emptyImg = h1.getD r1 emptyImg) := by
  constructor
  · intro h1 r1 a1 he
    rw [detectar_desmatamento_mem_eq] at he
    rcases hcore : detectar_desmatamento_core (heap.getD i emptyImg) with e | ⟨ann, a2⟩ <;>
      rw [hcore] at he
    · exact absurd he (by simp)
    · simp only [Except.ok.injEq, Prod.mk.injEq] at he
      obtain ⟨hh1, hr1, ha1⟩ := he
      subst hh1; subst hr1; subst ha1
      refine ⟨(heap ++ [ann]) ++ [ann], (heap ++ [ann]).length, ?_, ?_⟩
      · rw [detectar_desmatamento_mem_eq, getD_append_lt heap [ann] i emptyImg hi, hcore]
      · rw [getD_append_len, getD_append_len]
  · intro h1 r1 n1 he
    rw [detectar_focos_incendio_mem_eq] at he
    rcases hcore : detectar_focos_incendio_core (heap.getD i emptyImg) with e | ⟨ann, n2⟩ <;>
      rw [hcore] at he
    · exact absurd he (by simp)
    · simp only [Except.ok.injEq, Prod.mk.injEq] at he
      obtain ⟨hh1, hr1, hn1⟩ := he
      subst hh1; subst hr1; subst hn1
      refine ⟨(heap ++ [ann]) ++ [ann], (heap ++ [ann]).length, ?_, ?_⟩
      · rw [detectar_focos_incendio_mem_eq, getD_append_lt heap [ann] i emptyImg hi, hcore]
      · rw [getD_append_len, getD_append_len]

theorem C8_witness :
    (0 < [wImg].length) ∧
    (∃ h2 r2, detectar_desmatamento_mem [wImg, wImg] 0 = .ok (h2, r2, (0 : Rat)) ∧
      h2.getD r2 emptyImg = [wImg, wImg].getD 1 emptyImg) ∧
    (∃ h2 r2, detectar_focos_incendio_mem [wImg, wImg] 0 = .ok (h2, r2, (0 : Nat)) ∧
      h2.getD r2 emptyImg = [wImg, wImg].getD 1 emptyImg) :=
  ⟨by decide,
    (C8_detectors_deterministic_reruns [wImg] 0 (by decide)).1 [wImg, wImg] 1 0 (by decide),
    (C8_detectors_deterministic_reruns [wImg] 0 (by decide)).2 [wImg, wImg] 1 0 (by decide)⟩

/-! ## Claim C5 -/

/-- C5 counterexample: with the code's default morphology border,
erosion treats out-of-bounds pixels as foreground, not background — the
corner of an all-foreground 3×3 mask survives `erode` (255) although
under the spec's all-background border rule it would be erased (0), and
consequently `MORPH_OPEN` preserves the entire edge-touching region
that the background-border reading would wipe out completely. -/
theorem C5_counterexample :
    (erode full3).atN 0 0 = 255 ∧
    (erodeSpecBorder full3).atN 0 0 = 0 ∧
    morphOpen full3 = full3 ∧
    dilate (erodeSpecBorder full3) ≠ full3 := by
  have h1 : erode full3 = lit3 := by decide
  have h2 : dilate lit3 = lit3 := by decide
  have h3 : lit3 = full3 := by decide
  have h4 : erodeSpecBorder full3 = zlit3 := by decide
  have h5 : dilate zlit3 = zlit3 := by decide
  refine ⟨by decide, by decide, ?_, ?_⟩
  · show dilate (erode full3) = full3
    rw [h1, h2, h3]
  · show dilate (erodeSpecBorder full3) ≠ full3
    rw [h4, h5]
    decide

/-- C5 (amended): in every dilation pass of both detectors out-of-bounds
pixels are indeed treated as background (a window position contributes
only if it is in bounds and foreground), but in every erosion pass (the
first half of `MORPH_OPEN` and second half of `MORPH_CLOSE`)
out-of-bounds pixels are treated as foreground — a pixel survives
erosion iff every in-bounds window position is foreground — so
edge-touching regions are preserved (though not grown) at the border. -/
theorem C5_morphology_border_roles (m : Mask)
    (hb : ∀ a b, m.atN a b = 0 ∨ m.atN a b = 255)
    (x y : Nat) (hx : x < m.width) (hy : y < m.height) :
    ((erode m).atN x y = 255 ↔
      ∀ d ∈ offsets5, m.inB ((x : Int) + d.1) ((y : Int) + d.2) →
        m.atN ((x : Int) + d.1).toNat ((y : Int) + d.2).toNat = 255) ∧
    ((dilate m).atN x y = 255 ↔
      ∃ d ∈ offsets5, m.inB ((x : Int) + d.1) ((y : Int) + d.2) ∧
        m.atN ((x : Int) + d.1).toNat ((y : Int) + d.2).toNat = 255) := by
  constructor
  · unfold erode
    rw [mkMask_atN, if_pos ⟨hx, hy⟩, ← List.foldl_map
      (fun d => m.atB ((x : Int) + d.1) ((y : Int) + d.2) 255) min offsets5 255]
    constructor
    · intro h255 d hd hin
      have hge : 255 ≤ m.atB ((x : Int) + d.1) ((y : Int) + d.2) 255 :=
        ((foldl_min_ge _ _).mp (le_of_eq h255.symm)).2 _
          (List.mem_map_of_mem _ hd)
      rw [atB_in m _ _ 255 hin] at hge
      rcases hb ((x : Int) + d.1).toNat ((y : Int) + d.2).toNat with h0 | h0 <;> omega
    · intro hall
      refine le_antisymm (foldl_min_le_init _ _) ((foldl_min_ge _ _).mpr ⟨le_refl _, ?_⟩)
      intro v hv
      obtain ⟨d, hd, rfl⟩ := List.mem_map.mp hv
      by_cases hin : m.inB ((x : Int) + d.1) ((y : Int) + d.2)
      · rw [atB_in m _ _ 255 hin, hall d hd hin]
      · rw [atB_out m _ _ 255 hin]
  · unfold dilate
    rw [mkMask_atN, if_pos ⟨hx, hy⟩, ← List.foldl_map
      (fun d => m.atB ((x : Int) + d.1) ((y : Int) + d.2) 0) max offsets5 0]
    constructor
    · intro h255
      rcases (foldl_max_ge _ _).mp (le_of_eq h255.symm) with h0 | ⟨v, hv, hkv⟩
      · omega
      · obtain ⟨d, hd, rfl⟩ := List.mem_map.mp hv
        by_cases hin : m.inB ((x : Int) + d.1) ((y : Int) + d.2)
        · rw [atB_in m _ _ 0 hin] at hkv
          refine ⟨d, hd, hin, ?_⟩
          rcases hb ((x : Int) + d.1).toNat ((y : Int) + d.2).toNat with h0 | h0 <;> omega
        · rw [atB_out m _ _ 0 hin] at hkv
          omega
    · rintro ⟨d, hd, hin, hfg⟩
      refine le_antisymm ?_ ((foldl_max_ge _ _).mpr (Or.inr
        ⟨m.atB ((x : Int) + d.1) ((y : Int) + d.2) 0,
          List.mem_map_of_mem _ hd, by rw [atB_in m _ _ 0 hin, hfg]⟩))
      refine foldl_max_le _ _ _ (by omega) ?_
      intro v hv
      obtain ⟨e, he, rfl⟩ := List.mem_map.mp hv
      by_cases hin2 : m.inB ((x : Int) + e.1) ((y : Int) + e.2)
      · rw [atB_in m _ _ 0 hin2]
        rcases hb ((x : Int) + e.1).toNat ((y : Int) + e.2).toNat with h0 | h0 <;> omega
      · rw [atB_out m _ _ 0 hin2]
        omega

theorem C5_witness :
    ((∀ a b, full3.atN a b = 0 ∨ full3.atN a b = 255) ∧ 0 < full3.width ∧ 0 < full3.height) ∧
    (erode full3).atN 1 1 = 255 ∧ (dilate full3).atN 1 1 = 255 :=
  ⟨⟨fun a b => by
      rw [show full3.atN a b = if a < 3 ∧ b < 3 then 255 else 0 from mkMask_atN 3 3 _ a b]
      split
      · exact Or.inr rfl
      · exact Or.inl rfl,
    by decide, by decide⟩,
    ((C5_morphology_border_roles full3
      (fun a b => by
        rw [show full3.atN a b = if a < 3 ∧ b < 3 then 255 else 0 from mkMask_atN 3 3 _ a b]
        split
        · exact Or.inr rfl
        · exact Or.inl rfl) 1 1 (by decide) (by decide)).1).mpr (by decide),
    ((C5_morphology_border_roles full3
      (fun a b => by
        rw [show full3.atN a b = if a < 3 ∧ b < 3 then 255 else 0 from mkMask_atN 3 3 _ a b]
        split
        · exact Or.inr rfl
        · exact Or.inl rfl) 1 1 (by decide) (by decide)).2).mpr
      ⟨(0, 0), by decide, by decide, by decide⟩⟩

/-! ## Claim C1 -/

theorem soloStep_eq (st : Img × Rat) (c : List (Int × Int)) :
    soloStep st c
      = if 500 < contourArea c then (drawSoloRegion st.1 c, st.2 + contourArea c)
        else st := rfl

theorem solo_fold_filter (l : List (List (Int × Int))) :
    ∀ (im : Img) (a : Rat),
      l.foldl soloStep (im, a)
        = ((l.filter (fun c => 500 < contourArea c)).foldl drawSoloRegion im,
           a + ((l.filter (fun c => 500 < contourArea c)).map contourArea).sum) := by
  induction l with
  | nil => intro im a; simp
  | cons c t ih =>
    intro im a
    rw [List.foldl_cons, soloStep_eq]
    by_cases hc : 500 < contourArea c
    · rw [if_pos hc, ih, List.filter_cons_of_pos (by simpa using hc)]
      simp [add_assoc]
    · rw [if_neg hc, ih, List.filter_cons_of_neg (by simpa using hc)]

/-- C1: on every input (valid or not) the soil-exposure detector
computes exactly the specified pipeline: same error behaviour, same
stage order, same constants, same annotations, and the returned scalar
is the sum of the kept regions' areas. -/
theorem C1_soil_detector_is_spec_pipeline (img : Img) :
    detectar_desmatamento (some img) = soilPipelineSpec img := by
  show detectar_desmatamento_core img = soilPipelineSpec img
  unfold detectar_desmatamento_core soilPipelineSpec solo_mask
  cases h : cvtColorBGR2HSV img with
  | error e => rfl
  | ok hsv =>
    simp only [solo_fold_filter, zero_add]

/-! ## Claim C3 -/

/-- Success of `cvtColor` on a valid 3-channel image, with the explicit
HSV buffer it produces. -/
theorem cvtColor_ok (img : Img) (hw : 0 < img.width) (hh : 0 < img.height)
    (hc : img.channels = 3) :
    cvtColorBGR2HSV img
      = .ok (mkImg 3 img.width img.height (fun x y => bgr2hsvPix (img.px x y))) := by
  unfold cvtColorBGR2HSV
  rw [if_neg (by omega), if_pos (Or.inl hc)]

theorem focoStep_eq (st : Img × Nat) (c : List (Int × Int)) :
    focoStep st c
      = if 30 < contourArea c then (drawFocoRegion st.1 c, st.2 + 1) else st := rfl

theorem foco_fold_count (l : List (List (Int × Int))) :
    ∀ (im : Img) (n : Nat),
      (l.foldl focoStep (im, n)).2
        = n + (l.filter (fun c => 30 < contourArea c)).length := by
  induction l with
  | nil => intro im n; simp
  | cons c t ih =>
    intro im n
    rw [List.foldl_cons, focoStep_eq]
    by_cases hc : 30 < contourArea c
    · rw [if_pos hc, ih, List.filter_cons_of_pos (by simpa using hc)]
      simp
      omega
    · rw [if_neg hc, ih, List.filter_cons_of_neg (by simpa using hc)]

/-- C3 counterexample: on the all-red 6×6 image the fire mask is the
full frame, a single region of 36 foreground pixels.  The "area" the
code filters on is `cv2.contourArea` of its boundary trace, which is 25
(the shoelace area of the 5×5 square through the border pixel centres) —
not the enclosed pixel count 36.  Since 25 ≤ 30 < 36, the detector
reports 0 hotspots on this image even though the region's
interior-pixel count exceeds the 30-pixel threshold, so the filter
cannot be using filled pixel-count semantics. -/
theorem C3_counterexample :
    detectar_focos_incendio (some red6) = .ok (red6, 0) ∧
    (cvtColorBGR2HSV (gaussianBlur5 red6)).map
        (fun hsv => ((findContours (fire_mask hsv)).map contourArea,
                     (component8 (fire_mask hsv) (0, 0)).length))
      = .ok ([25], 36) ∧
    ¬ ((30 : Rat) < 25) ∧ ((30 : Rat) < 36) := by
  refine ⟨by decide, by decide, by decide, by decide⟩

/-- C3 (amended): the region "area" used by both size filters — and
summed into the soil detector's total — is `cv2.contourArea`, the
absolute Green's-formula (shoelace) area of the region's outer boundary
polygon: an exact multiple of 1/2 that generally differs from the
enclosed-pixel count (25 versus 36 on a full 6×6 block), though it is
also not the boundary's perimeter length.  Concretely, the soil
detector returns the sum of `|shoelace|/2` over the kept contours and
the fire detector counts the contours whose `|shoelace|/2` exceeds
30. -/
theorem C3_area_is_shoelace_not_pixel_count (img : Img)
    (hw : 0 < img.width) (hh : 0 < img.height) (hc : img.channels = 3) :
    (∃ hsv ann, cvtColorBGR2HSV img = .ok hsv ∧
      detectar_desmatamento (some img) = .ok (ann,
        (((findContours (solo_mask hsv)).filter (fun c => 500 < contourArea c)).map
          (fun c => ((shoelace2 c).natAbs : Rat) / 2)).sum)) ∧
    (∃ hsv2 ann2, cvtColorBGR2HSV (gaussianBlur5 img) = .ok hsv2 ∧
      detectar_focos_incendio (some img) = .ok (ann2,
        ((findContours (fire_mask hsv2)).filter (fun c => 30 < contourArea c)).length)) := by
  constructor
  · refine ⟨mkImg 3 img.width img.height (fun x y => bgr2hsvPix (img.px x y)),
      ((findContours (solo_mask (mkImg 3 img.width img.height
        (fun x y => bgr2hsvPix (img.px x y))))).filter
          (fun c => 500 < contourArea c)).foldl drawSoloRegion img.copy,
      cvtColor_ok img hw hh hc, ?_⟩
    show detectar_desmatamento_core img = _
    unfold detectar_desmatamento_core
    rw [cvtColor_ok img hw hh hc]
    simp only [solo_fold_filter, zero_add]
    have hmap : ((findContours (solo_mask (mkImg 3 img.width img.height
          (fun x y => bgr2hsvPix (img.px x y))))).filter
            (fun c => 500 < contourArea c)).map
          (fun c => ((shoelace2 c).natAbs : Rat) / 2)
        = ((findContours (solo_mask (mkImg 3 img.width img.height
          (fun x y => bgr2hsvPix (img.px x y))))).filter
            (fun c => 500 < contourArea c)).map contourArea :=
      List.map_congr_left (fun c _ => (contourArea_eq c).symm)
    rw [hmap]
  · have hz : ¬ (img.width = 0 ∨ img.height = 0) := by omega
    have hcvb := cvtColor_ok (gaussianBlur5 img) (by exact hw) (by exact hh) (by exact hc)
    refine ⟨mkImg 3 (gaussianBlur5 img).width (gaussianBlur5 img).height
        (fun x y => bgr2hsvPix ((gaussianBlur5 img).px x y)),
      ((findContours (fire_mask (mkImg 3 (gaussianBlur5 img).width (gaussianBlur5 img).height
        (fun x y => bgr2hsvPix ((gaussianBlur5 img).px x y))))).foldl
          focoStep (img.copy, 0)).1,
      hcvb, ?_⟩
    show detectar_focos_incendio_core img = _
    simp only [detectar_focos_incendio_core, if_neg hz, hcvb]
    rw [← Nat.zero_add (((findContours (fire_mask (mkImg 3 (gaussianBlur5 img).width
        (gaussianBlur5 img).height
        (fun x y => bgr2hsvPix ((gaussianBlur5 img).px x y))))).filter
          (fun c => 30 < contourArea c)).length),
      ← foco_fold_count]

theorem C3_witness :
    (0 < wImg.width ∧ 0 < wImg.height ∧ wImg.channels = 3) ∧
    ((∃ hsv ann, cvtColorBGR2HSV wImg = .ok hsv ∧
      detectar_desmatamento (some wImg) = .ok (ann,
        (((findContours (solo_mask hsv)).filter (fun c => 500 < contourArea c)).map
          (fun c => ((shoelace2 c).natAbs : Rat) / 2)).sum)) ∧
    (∃ hsv2 ann2, cvtColorBGR2HSV (gaussianBlur5 wImg) = .ok hsv2 ∧
      detectar_focos_incendio (some wImg) = .ok (ann2,
        ((findContours (fire_mask hsv2)).filter (fun c => 30 < contourArea c)).length))) :=
  ⟨⟨by decide, by decide, by decide⟩,
    C3_area_is_shoelace_not_pixel_count wImg (by decide) (by decide) (by decide)⟩

/-! ## Claim C6 -/

theorem soloStep_meta (st : Img × Rat) (c : List (Int × Int)) :
    (soloStep st c).1.channels = st.1.channels ∧ (soloStep st c).1.width = st.1.width ∧
      (soloStep st c).1.height = st.1.height := by
  unfold soloStep
  by_cases hc : 500 < contourArea c
  · rw [if_pos hc]
    exact ⟨rfl, rfl, rfl⟩
  · rw [if_neg hc]
    exact ⟨rfl, rfl, rfl⟩

theorem focoStep_meta (st : Img × Nat) (c : List (Int × Int)) :
    (focoStep st c).1.channels = st.1.channels ∧ (focoStep st c).1.width = st.1.width ∧
      (focoStep st c).1.height = st.1.height := by
  unfold focoStep
  by_cases hc : 30 < contourArea c
  · rw [if_pos hc]
    exact ⟨rfl, rfl, rfl⟩
  · rw [if_neg hc]
    exact ⟨rfl, rfl, rfl⟩

/-- C6: on any valid 3-channel input, each detector succeeds and returns
an annotated image whose channel count, width and height are identical
to the input's. -/
theorem C6_output_dims_match_input (img : Img)
    (hw : 0 < img.width) (hh : 0 < img.height) (hc : img.channels = 3) :
    (∃ ann a, detectar_desmatamento (some img) = .ok (ann, a) ∧
      ann.channels = img.channels ∧ ann.width = img.width ∧ ann.height = img.height) ∧
    (∃ ann n, detectar_focos_incendio (some img) = .ok (ann, n) ∧
      ann.channels = img.channels ∧ ann.width = img.width ∧ ann.height = img.height) := by
  constructor
  · show (∃ ann a, detectar_desmatamento_core img = .ok (ann, a) ∧ _)
    unfold detectar_desmatamento_core
    rw [cvtColor_ok img hw hh hc]
    refine ⟨_, _, rfl, ?_⟩
    exact foldl_preserves
      (fun st => st.1.channels = img.channels ∧ st.1.width = img.width ∧
        st.1.height = img.height)
      soloStep _ (img.copy, 0) ⟨rfl, rfl, rfl⟩
      (fun st c _ hP => by
        obtain ⟨h1, h2, h3⟩ := soloStep_meta st c
        exact ⟨h1.trans hP.1, h2.trans hP.2.1, h3.trans hP.2.2⟩)
  · show (∃ ann n, detectar_focos_incendio_core img = .ok (ann, n) ∧ _)
    have hz : ¬ (img.width = 0 ∨ img.height = 0) := by omega
    have hcvb := cvtColor_ok (gaussianBlur5 img) (by exact hw) (by exact hh) (by exact hc)
    simp only [detectar_focos_incendio_core, if_neg hz, hcvb]
    refine ⟨_, _, rfl, ?_⟩
    exact foldl_preserves
      (fun st => st.1.channels = img.channels ∧ st.1.width = img.width ∧
        st.1.height = img.height)
      focoStep _ (img.copy, 0) ⟨rfl, rfl, rfl⟩
      (fun st c _ hP => by
        obtain ⟨h1, h2, h3⟩ := focoStep_meta st c
        exact ⟨h1.trans hP.1, h2.trans hP.2.1, h3.trans hP.2.2⟩)

theorem C6_witness :
    (0 < wImg.width ∧ 0 < wImg.height ∧ wImg.channels = 3) ∧
    ((∃ ann a, detectar_desmatamento (some wImg) = .ok (ann, a) ∧
      ann.channels = wImg.channels ∧ ann.width = wImg.width ∧ ann.height = wImg.height) ∧
    (∃ ann n, detectar_focos_incendio (some wImg) = .ok (ann, n) ∧
      ann.channels = wImg.channels ∧ ann.width = wImg.width ∧ ann.height = wImg.height)) :=
  ⟨⟨by decide, by decide, by decide⟩,
    C6_output_dims_match_input wImg (by decide) (by decide) (by decide)⟩

/-! ## Claim C10 -/

theorem paint_px (img : Img) (pred : Int → Int → Prop) [∀ a b, Decidable (pred a b)]
    (color : Nat × Nat × Nat) (x y : Nat) (hx : x < img.width) (hy : y < img.height) :
    (paint img pred color).px x y
      = if pred (x : Int) (y : Int) then color else img.px x y := by
  unfold paint
  rw [mkImg_px, if_pos ⟨hx, hy⟩]

/-- C10: the Gaussian blur influences only mask construction.  The
returned image is drawn on a copy of the original unblurred input, so
every in-bounds pixel not covered by some kept region's drawn rectangle
or label equals the corresponding input pixel — no blurring appears in
the output. -/
theorem C10_fire_output_unblurred_outside_annotations (img : Img)
    (hw : 0 < img.width) (hh : 0 < img.height) (hc : img.channels = 3)
    (x y : Nat) (hx : x < img.width) (hy : y < img.height)
    (hfar : ∀ c ∈ findContours (fire_mask (fireHSV img)),
      30 < contourArea c → ¬ fireDrawFootprint c (x : Int) (y : Int)) :
    ∃ ann n, detectar_focos_incendio (some img) = .ok (ann, n) ∧
      ann.px x y = img.px x y := by
  have hz : ¬ (img.width = 0 ∨ img.height = 0) := by omega
  have hcvb : cvtColorBGR2HSV (gaussianBlur5 img) = .ok (fireHSV img) :=
    cvtColor_ok (gaussianBlur5 img) (by exact hw) (by exact hh) (by exact hc)
  show ∃ ann n, detectar_focos_incendio_core img = .ok (ann, n) ∧ _
  simp only [detectar_focos_incendio_core, if_neg hz, hcvb]
  refine ⟨_, _, rfl, ?_⟩
  refine (foldl_preserves
    (fun (st : Img × Nat) => st.1.width = img.width ∧ st.1.height = img.height ∧
      st.1.px x y = img.px x y)
    focoStep (findContours (fire_mask (fireHSV img))) (img.copy, 0)
    ⟨rfl, rfl, rfl⟩ ?_).2.2
  intro st c hmem hP
  rw [focoStep_eq]
  by_cases h30 : 30 < contourArea c
  · rw [if_pos h30]
    have hnf := hfar c hmem h30
    obtain ⟨hPw, hPh, hPpx⟩ := hP
    have hxi : x < st.1.width := by rw [hPw]; exact hx
    have hyi : y < st.1.height := by rw [hPh]; exact hy
    refine ⟨hPw, hPh, ?_⟩
    show (paint (paint st.1 _ _) _ _).px x y = img.px x y
    rw [paint_px _ _ _ x y (by exact hxi) (by exact hyi)]
    simp only [show "Foco de Incendio".length = 16 from rfl]
    rw [if_neg (fun ht => hnf (Or.inr ht)),
      paint_px _ _ _ x y hxi hyi,
      if_neg (fun hr => hnf (Or.inl hr))]
    exact hPpx
  · rw [if_neg h30]
    exact hP

theorem C10_witness :
    (0 < green1.width ∧ 0 < green1.height ∧ green1.channels = 3) ∧
    (∃ ann n, detectar_focos_incendio (some green1) = .ok (ann, n) ∧
      ann.px 0 0 = green1.px 0 0) :=
  ⟨⟨by decide, by decide, by decide⟩,
    C10_fire_output_unblurred_outside_annotations green1 (by decide) (by decide) (by decide)
      0 0 (by decide) (by decide) (by decide)⟩

theorem C4_witness :
    ((some gray2 = none ∨ ∃ img, some gray2 = some img ∧
        (img.width = 0 ∨ img.height = 0 ∨ (img.channels ≠ 3 ∧ img.channels ≠ 4))) ∧
      0 < gray2.width ∧ 0 < gray2.height) ∧
    detectar_desmatamento (some gray2)
      = .error (.cv2error "cvtColor: invalid number of channels") ∧
    detectar_focos_incendio (some gray2)
      = .error (.cv2error "cvtColor: invalid number of channels") ∧
    detectar_desmatamento none = .error (.cv2error "cvtColor: !_src.empty()") ∧
    detectar_focos_incendio none = .error (.cv2error "GaussianBlur: !_src.empty()") := by
  have h : some gray2 = none ∨ ∃ img, some gray2 = some img ∧
      (img.width = 0 ∨ img.height = 0 ∨ (img.channels ≠ 3 ∧ img.channels ≠ 4)) :=
    Or.inr ⟨gray2, rfl, Or.inr (Or.inr ⟨by decide, by decide⟩)⟩
  refine ⟨⟨h, by decide, by decide⟩, ?_, ?_, ?_, ?_⟩
  · exact (C4_invalid_input_raises_generic_cv2_error (some gray2) h).2.1 gray2 rfl
      (by decide) (by decide)
  · exact (C4_invalid_input_raises_generic_cv2_error (some gray2) h).2.2.2 gray2 rfl
      (by decide) (by decide)
  · exact (C4_invalid_input_raises_generic_cv2_error none (Or.inl rfl)).1 (Or.inl rfl)
  · exact (C4_invalid_input_raises_generic_cv2_error none (Or.inl rfl)).2.2.1 (Or.inl rfl)

end Processamento
